import Mathlib

/-!
Formal model of the go-wasm WebAssembly binary parser
(github.com/akupila/go-wasm), shallowly embedded in Lean 4.

Go byte slices are modelled as `List Nat` (each element a byte value),
Go `error` returns as an explicit `Except` with an inductive error type
whose constructors mirror the distinct `fmt.Errorf` messages, and the
position-tracking `reader` wrapper as a `Reader` structure carrying the
remaining bytes together with the count of bytes consumed so far.
Machine integers (`uint32`, `int32`) are modelled as `Nat`/`Int` with
explicit reduction modulo `2^32` exactly where Go arithmetic wraps.
-/

namespace Wasm

/-- Errors returned by the decoders. Each constructor mirrors one distinct
error produced in the source: `eof` is `io.EOF`, `unexpectedEOF` is
`io.ErrUnexpectedEOF`, `ctx s e` is a `fmt.Errorf("<s>: %v", e)` wrap,
`entry i e` is the `fmt.Errorf("entry %d: %v", i, err)` wrap of
`parseMultiSection`, and `sectionNotFullyRead` carries the expected and
actual byte counts of the "section was not fully read, expected %d to be
read but %d were read" error. `makesliceLenOutOfRange` is not an error
value of the Go code at all: it marks the runtime panic raised by
`make([]byte, n)` with negative `n` (the program crashes rather than
returning an error). `outOfFuel` is a modelling artifact of the
`Parse` section loop (see `parseLoop`); it is unreachable for the inputs
considered, because every successful `parseSection` consumes at least the
one-byte section id. -/
inductive PErr where
  | eof
  | unexpectedEOF
  | couldNotReadHeader
  | couldNotReadVersion
  | notWasmFile
  | unsupportedVersion (v : Nat)
  | dataCorrupted (sID : Nat)
  | sectionNotFullyRead (expected actual : Nat)
  | unknownNameSection (t : Nat)
  | unknownOpcode (b : Nat)
  | makesliceLenOutOfRange
  | outOfFuel
  | entry (i : Nat) (e : PErr)
  | ctx (s : String) (e : PErr)
  deriving DecidableEq

/-- Whether the formatted message of an error ends in the string "EOF".
The `Parse` loop of parser.go stops normally when
`strings.HasSuffix(err.Error(), io.EOF.Error())`: `io.EOF` prints as
"EOF", `io.ErrUnexpectedEOF` prints as "unexpected EOF", and the
`fmt.Errorf("...: %v", err)` wraps keep the wrapped message as a suffix. -/
def PErr.endsWithEOF : PErr → Bool
  | .eof => true
  | .unexpectedEOF => true
  | .entry _ e => e.endsWithEOF
  | .ctx _ e => e.endsWithEOF
  | _ => false

/-- The position-tracking reader (reader.go): the bytes not yet consumed
plus the index of the next byte, i.e. the count of bytes consumed so far
(`reader.Index()`). -/
structure Reader where
  data : List Nat
  idx : Nat
  deriving DecidableEq

/-- Reads a single byte (`readByte` in binary.go); `io.EOF` when the
input is exhausted. -/
def readByte : Reader → Except PErr (Nat × Reader)
  | ⟨[], _⟩ => .error .eof
  | ⟨b :: rest, i⟩ => .ok (b, ⟨rest, i + 1⟩)

/-- Reads exactly `n` bytes into a fresh buffer, modelling
`b := make([]byte, n); read(p.r, b)` (binary.Read does an `io.ReadFull`):
`io.EOF` if no byte is available, `io.ErrUnexpectedEOF` on a partial
read. -/
def readBytes (n : Nat) (r : Reader) : Except PErr (List Nat × Reader) :=
  if n ≤ r.data.length then .ok (r.data.take n, ⟨r.data.drop n, r.idx + n⟩)
  else if r.data.isEmpty then .error .eof
  else .error .unexpectedEOF

/-- Reads one byte as a Go `bool` (`binary.Read` maps any nonzero byte to
`true`). -/
def readBool (r : Reader) : Except PErr (Bool × Reader) :=
  match readByte r with
  | .error e => .error e
  | .ok (b, r2) => .ok (decide (b ≠ 0), r2)

/-- Reads a little-endian `uint32`, modelling
`read(p.r, &v)` = `binary.Read(r, binary.LittleEndian, &v)`. -/
def readUint32LE (r : Reader) : Except PErr (Nat × Reader) :=
  match r.data with
  | b0 :: b1 :: b2 :: b3 :: rest =>
      .ok (b0 + 256 * b1 + 65536 * b2 + 16777216 * b3, ⟨rest, r.idx + 4⟩)
  | [] => .error .eof
  | _ => .error .unexpectedEOF

/-- Discards exactly `n` bytes, modelling
`io.CopyN(ioutil.Discard, p.r, int64(n))`, which returns `io.EOF` when
the source runs out early. -/
def discardN (n : Nat) (r : Reader) : Except PErr Reader :=
  if n ≤ r.data.length then .ok ⟨r.data.drop n, r.idx + n⟩ else .error .eof

/-- Reads bytes up to and including the first occurrence of `delim`
(`readUntil` in binary.go). -/
def readUntil (delim : Nat) (r : Reader) : Except PErr (List Nat × Reader) :=
  match r with
  | ⟨[], _⟩ => .error .eof
  | ⟨b :: rest, i⟩ =>
    if b = delim then .ok ([b], ⟨rest, i + 1⟩)
    else
      match readUntil delim ⟨rest, i + 1⟩ with
      | .error e => .error e
      | .ok (bs, r2) => .ok (b :: bs, r2)
termination_by r.data.length

/-- Loop body of `readVarUint32` (binary.go): `*v |= uint32(b&0x7F) << shift`
with `uint32` truncation of the shift, continuing while the continuation
bit `b & 0x80` is set. The accumulator starts at `0` because every call
site passes a freshly zeroed `uint32`. -/
def readVarUint32Aux : List Nat → Nat → Nat → Except PErr (Nat × List Nat)
  | [], _, _ => .error .eof
  | b :: rest, acc, shift =>
    let acc2 := acc ||| (((b &&& 127) <<< shift) % 4294967296)
    if b &&& 128 = 0 then .ok (acc2, rest)
    else readVarUint32Aux rest acc2 (shift + 7)

/-- Unsigned LEB128-style decoder `readVarUint32` (binary.go), lifted to
the position-tracking reader. -/
def readVarUint32 (r : Reader) : Except PErr (Nat × Reader) :=
  match readVarUint32Aux r.data 0 0 with
  | .error e => .error e
  | .ok (v, rest) => .ok (v, ⟨rest, r.idx + (r.data.length - rest.length)⟩)

/-- Interprets a 32-bit pattern as a Go `int32` (two's complement). -/
def toInt32 (pattern : Nat) : Int :=
  if pattern < 2147483648 then (pattern : Int) else (pattern : Int) - 4294967296

/-- Loop body of `readVarInt32` (binary.go): identical to the unsigned
decoder except that the register is an `int32`; the bit pattern is
accumulated and interpreted as two's complement on exit. -/
def readVarInt32Aux : List Nat → Nat → Nat → Except PErr (Int × List Nat)
  | [], _, _ => .error .eof
  | b :: rest, acc, shift =>
    let acc2 := acc ||| (((b &&& 127) <<< shift) % 4294967296)
    if b &&& 128 = 0 then .ok (toInt32 acc2, rest)
    else readVarInt32Aux rest acc2 (shift + 7)

/-- Number-of-bytes helper `varUint32Size` (binary.go):
`for v > 0 { s++; v = v >> 8 }`. Note the shift by 8, which counts
base-256 digits. -/
def varUint32Size (v : Nat) : Nat :=
  if v = 0 then 0 else varUint32Size (v >>> 8) + 1
termination_by v
decreasing_by
  rename_i h
  simp only [Nat.shiftRight_eq_div_pow]
  exact Nat.div_lt_self (Nat.pos_of_ne_zero h) (by norm_num)

/-- Modelled from the spec: the repository contains no varint encoder, only
the decoder `readVarUint32` and the size helper `varUint32Size`; the
spec describes the codec as LEB128-style ("each byte contributes 7
payload bits and a continuation bit"). This is the minimal unsigned
LEB128 encoding of a value: low 7 bits per byte, high bit set on every
byte except the last. -/
def leb128Encode (v : Nat) : List Nat :=
  if v < 128 then [v] else (v % 128 + 128) :: leb128Encode (v >>> 7)
termination_by v
decreasing_by
  rename_i h
  simp only [Nat.shiftRight_eq_div_pow]
  exact Nat.div_lt_self (by omega) (by norm_num)

deriving instance DecidableEq for Except

theorem land_127_eq_mod (b : Nat) : b &&& 127 = b % 128 := by
  have h := Nat.and_pow_two_sub_one_eq_mod b 7
  norm_num at h
  exact h

theorem land_128_eq_zero {b : Nat} (h : b % 256 < 128) : b &&& 128 = 0 := by
  have h7 : (128 : Nat) = 2 ^ 7 := by norm_num
  rw [h7, Nat.and_two_pow]
  have hbit : b.testBit 7 = false := by
    rw [Nat.testBit_to_div_mod]
    simp only [decide_eq_false_iff_not]
    omega
  simp [hbit]

theorem land_128_ne_zero {b : Nat} (hlo : 128 ≤ b % 256) : b &&& 128 ≠ 0 := by
  have h7 : (128 : Nat) = 2 ^ 7 := by norm_num
  rw [h7, Nat.and_two_pow]
  have hbit : b.testBit 7 = true := by
    rw [Nat.testBit_to_div_mod]
    simp only [decide_eq_true_eq]
    omega
  simp [hbit]

/-- Disjoint-bits accumulation step: with the low bits `acc < 2 ^ shift`
already placed, OR-ing in `c <<< shift` is plain addition. -/
theorem lor_shift_eq_add {acc shift : Nat} (c : Nat) (h : acc < 2 ^ shift) :
    acc ||| (c <<< shift) = acc + c * 2 ^ shift := by
  rw [Nat.shiftLeft_eq, Nat.mul_comm c (2 ^ shift), Nat.or_comm,
    ← Nat.mul_add_lt_is_or h c]
  omega

/-- Round-trip of the modelled LEB128 encoder through the source decoder
loop, generalized over the partially filled accumulator. -/
theorem readVarUint32Aux_leb128Encode (v : Nat) :
    ∀ acc shift rest, acc < 2 ^ shift → v * 2 ^ shift < 4294967296 →
      readVarUint32Aux (leb128Encode v ++ rest) acc shift =
        .ok (acc + v * 2 ^ shift, rest) := by
  induction v using Nat.strong_induction_on with
  | _ v ih =>
    intro acc shift rest hacc hv
    have hpow : (0 : Nat) < 2 ^ shift := Nat.pos_pow_of_pos _ (by norm_num)
    rw [leb128Encode]
    by_cases hsmall : v < 128
    · have hband : v &&& 127 = v := by
        rw [land_127_eq_mod, Nat.mod_eq_of_lt hsmall]
      have hcont : v &&& 128 = 0 := land_128_eq_zero (by omega)
      have hmod : ((v &&& 127) <<< shift) % 4294967296 = v * 2 ^ shift := by
        rw [hband, Nat.shiftLeft_eq]
        exact Nat.mod_eq_of_lt (by omega)
      have hlor : acc ||| v * 2 ^ shift = acc + v * 2 ^ shift := by
        have h := lor_shift_eq_add v hacc
        rwa [Nat.shiftLeft_eq] at h
      simp [readVarUint32Aux, hsmall, hmod, hlor, hcont]
    · have hband : v % 128 + 128 &&& 127 = v % 128 := by
        rw [land_127_eq_mod]
        omega
      have hcont : ¬(v % 128 + 128 &&& 128 = 0) := by
        apply land_128_ne_zero
        omega
      have hmlt : v % 128 * 2 ^ shift < 4294967296 := by
        have h1 : v % 128 ≤ v := Nat.mod_le _ _
        have h2 : v % 128 * 2 ^ shift ≤ v * 2 ^ shift := Nat.mul_le_mul_right _ h1
        omega
      have hmod : ((v % 128 + 128 &&& 127) <<< shift) % 4294967296
          = v % 128 * 2 ^ shift := by
        rw [hband, Nat.shiftLeft_eq]
        exact Nat.mod_eq_of_lt (by omega)
      have hlor : acc ||| v % 128 * 2 ^ shift = acc + v % 128 * 2 ^ shift := by
        have h := lor_shift_eq_add (v % 128) hacc
        rwa [Nat.shiftLeft_eq] at h
      have hlt : v >>> 7 < v := by
        simp only [Nat.shiftRight_eq_div_pow]
        exact Nat.div_lt_self (by omega) (by norm_num)
      have hp7 : (2 : Nat) ^ (shift + 7) = 2 ^ shift * 128 := by
        rw [pow_add]; norm_num
      have hacc2 : acc + v % 128 * 2 ^ shift < 2 ^ (shift + 7) := by
        have h3 : v % 128 * 2 ^ shift ≤ 127 * 2 ^ shift :=
          Nat.mul_le_mul_right _ (by omega)
        rw [hp7]
        omega
      have hshift7 : v >>> 7 = v / 128 := by
        simp [Nat.shiftRight_eq_div_pow]
      have hmul : v / 128 * 2 ^ (shift + 7) = v / 128 * 128 * 2 ^ shift := by
        rw [hp7]; ring
      have hsum : v / 128 * 128 * 2 ^ shift + v % 128 * 2 ^ shift = v * 2 ^ shift := by
        rw [← Nat.add_mul]
        congr 1
        omega
      have hv2 : v >>> 7 * 2 ^ (shift + 7) < 4294967296 := by
        rw [hshift7, hmul]
        omega
      have hrec := ih (v >>> 7) hlt (acc + v % 128 * 2 ^ shift) (shift + 7) rest hacc2 hv2
      simp only [if_neg hsmall, List.cons_append, readVarUint32Aux, hmod, hlor, hcont,
        if_false, hrec]
      have hfin : acc + v % 128 * 2 ^ shift + v >>> 7 * 2 ^ (shift + 7)
          = acc + v * 2 ^ shift := by
        rw [hshift7, hmul]
        omega
      rw [hfin]

/-- Round-trip at the `Reader` level: decoding an encoded 32-bit value
reproduces the value and consumes exactly the encoded bytes. -/
theorem readVarUint32_leb128Encode (v : Nat) (hv : v < 4294967296)
    (rest : List Nat) (i : Nat) :
    readVarUint32 ⟨leb128Encode v ++ rest, i⟩ =
      .ok (v, ⟨rest, i + (leb128Encode v).length⟩) := by
  have h := readVarUint32Aux_leb128Encode v 0 0 rest (by norm_num) (by omega)
  simp only [readVarUint32, h, pow_zero, Nat.mul_one, Nat.zero_add]
  have hsuffix : rest.length ≤ (leb128Encode v ++ rest).length := by
    simp
  congr 1
  congr 1
  simp

/-- C2: the claim pairs the varint round-trip with the assertion that the
encoded byte count equals `varUint32Size(v)`. The round-trip half holds
(see `readVarUint32_leb128Encode`), but `varUint32Size` shifts by 8
instead of 7, counting base-256 digits rather than LEB128 bytes, against
its own doc comment ("returns the size in bytes of a varuint32"): the
encoding of 0 is the single byte `[0x00]` while `varUint32Size 0 = 0`,
and the encoding of 128 is the two bytes `[0x80, 0x01]` while
`varUint32Size 128 = 1`. -/
theorem varUint32Size_disagrees_with_encoding :
    leb128Encode 0 = [0] ∧ varUint32Size 0 = 0 ∧
    leb128Encode 128 = [128, 1] ∧ varUint32Size 128 = 1 ∧
    readVarUint32 ⟨[128, 1], 0⟩ = .ok (128, ⟨[], 2⟩) ∧
    readVarUint32 ⟨[0], 0⟩ = .ok (0, ⟨[], 1⟩) ∧
    (leb128Encode 0).length ≠ varUint32Size 0 ∧
    (leb128Encode 128).length ≠ varUint32Size 128 := by
  refine ⟨?_, ?_, ?_, ?_, by decide, by decide, ?_, ?_⟩ <;>
    simp [leb128Encode, varUint32Size, Nat.shiftRight_eq_div_pow]

/-- Helper for the termination of the evaluator loop: the varint decoder
only consumes input. -/
theorem readVarInt32Aux_length_le :
    ∀ (l : List Nat) (acc shift : Nat) (n : Int) (l2 : List Nat),
      readVarInt32Aux l acc shift = .ok (n, l2) → l2.length ≤ l.length := by
  intro l
  induction l with
  | nil =>
    intro acc shift n l2 h
    simp [readVarInt32Aux] at h
  | cons b rest ih =>
    intro acc shift n l2 h
    simp only [readVarInt32Aux] at h
    split at h
    · simp only [Except.ok.injEq, Prod.mk.injEq] at h
      obtain ⟨-, h4⟩ := h
      subst h4
      simp
    · have := ih _ _ _ _ h
      simp only [List.length_cons]
      omega

/-- Constant-expression evaluator loop (eval.go `Eval`): one opcode byte
per iteration; `0x0B` ends the expression, `0x41` (i32.const) pushes a
decoded `varint32`, anything else is the "unknown opcode: 0x%02X" error.
A read at end of input maps `io.EOF` to `io.ErrUnexpectedEOF` at the
opcode position; inside the varint decode the raw `io.EOF` of
`readVarInt32` is propagated unchanged. -/
def evalLoop : List Nat → List Int → Except PErr (List Int)
  | [], _ => .error .unexpectedEOF
  | b :: rest, stack =>
    if b = 11 then .ok stack
    else if b = 65 then
      match h : readVarInt32Aux rest 0 0 with
      | .error e => .error e
      | .ok (n, rest2) => evalLoop rest2 (stack ++ [n])
    else .error (.unknownOpcode b)
termination_by l _ => l.length
decreasing_by
  have hlen := readVarInt32Aux_length_le rest 0 0 n rest2 h
  simp only [List.length_cons]
  omega

/-- Evaluates a constant expression from a byte buffer (eval.go `Eval`),
starting from the empty stack. -/
def Eval (l : List Nat) : Except PErr (List Int) :=
  evalLoop l []

/-- Helper: the varint decoder loop fails only by running off the end of
the input, and that failure is the plain `io.EOF`. -/
theorem readVarInt32Aux_error_eof :
    ∀ (l : List Nat) (acc shift : Nat) (e : PErr),
      readVarInt32Aux l acc shift = .error e → e = .eof := by
  intro l
  induction l with
  | nil =>
    intro acc shift e h
    simp only [readVarInt32Aux, Except.error.injEq] at h
    exact h.symm
  | cons b rest ih =>
    intro acc shift e h
    simp only [readVarInt32Aux] at h
    split at h
    · simp at h
    · exact ih _ _ _ h

/-- C6: evaluating `[0x41, 0x80, 0x80, 0x04, 0x0B]` yields the one-element
stack `[0x10000]`, evaluating `[0x0B]` yields the empty stack, and any
first opcode other than `0x41`/`0x0B` yields the "unknown opcode" error
naming that byte. -/
theorem Eval_const_expressions (b : Nat) (rest : List Nat)
    (hb : b < 256) (h11 : b ≠ 11) (h65 : b ≠ 65) :
    Eval [65, 128, 128, 4, 11] = .ok [65536] ∧
    Eval [11] = .ok [] ∧
    Eval (b :: rest) = .error (.unknownOpcode b) := by
  have hv : readVarInt32Aux [128, 128, 4, 11] 0 0 = .ok (65536, [11]) := by decide
  refine ⟨?_, ?_, ?_⟩
  · rw [Eval, evalLoop]
    norm_num
    split
    · rename_i e herr
      rw [hv] at herr
      cases herr
    · rename_i n rest2 hok
      rw [hv] at hok
      injection hok with hok
      injection hok with hok1 hok2
      subst hok1
      subst hok2
      rw [evalLoop]
      norm_num
  · rw [Eval, evalLoop]
    norm_num
  · rw [Eval, evalLoop]
    simp [h11, h65]

/-- Witness instantiation for `Eval_const_expressions`. -/
theorem Eval_const_expressions_witness :
    Eval [65, 128, 128, 4, 11] = .ok [65536] ∧
    Eval [11] = .ok [] ∧
    Eval [66, 11] = .error (.unknownOpcode 66) :=
  Eval_const_expressions 66 [11] (by decide) (by decide) (by decide)

/-- Truncation predicate for the evaluator: the input runs out (possibly
inside an i32.const varint) before the end marker `0x0B` is consumed.
This mirrors the consumption order of `Eval`; it is the formalization of
"the expression input ends before the end marker is reached". -/
def evalHitsEnd : List Nat → Bool
  | [] => true
  | b :: rest =>
    if b = 11 then false
    else if b = 65 then
      match h : readVarInt32Aux rest 0 0 with
      | .error _ => true
      | .ok (n, rest2) => evalHitsEnd rest2
    else false
termination_by l => l.length
decreasing_by
  have hlen := readVarInt32Aux_length_le rest 0 0 n rest2 h
  simp only [List.length_cons]
  omega

/-- Helper for C7, generalized over the accumulated stack. -/
theorem evalLoop_truncated :
    ∀ (l : List Nat) (stack : List Int), evalHitsEnd l = true →
      evalLoop l stack = .error .unexpectedEOF ∨ evalLoop l stack = .error .eof := by
  intro l
  induction l using evalHitsEnd.induct with
  | case1 =>
    intro stack _
    left
    rw [evalLoop]
  | case2 rest =>
    intro stack hh
    rw [evalHitsEnd] at hh
    simp at hh
  | case3 rest e herr hne =>
    intro stack hh
    right
    rw [evalLoop]
    norm_num
    split
    · rename_i e2 herr2
      rw [herr] at herr2
      injection herr2 with h2
      subst h2
      exact congrArg Except.error (readVarInt32Aux_error_eof rest 0 0 e herr)
    · rename_i n rest2 hok
      rw [herr] at hok
      cases hok
  | case4 rest n rest2 hok hne ih =>
    intro stack hh
    rw [evalHitsEnd] at hh
    norm_num at hh
    split at hh
    · rename_i e2 herr2
      rw [hok] at herr2
      cases herr2
    · rename_i n2 rest3 hok2
      rw [hok] at hok2
      injection hok2 with hok2
      injection hok2 with hok2a hok2b
      subst hok2a
      subst hok2b
      rw [evalLoop]
      norm_num
      split
      · rename_i e3 herr3
        rw [hok] at herr3
        cases herr3
      · rename_i n3 rest4 hok3
        rw [hok] at hok3
        injection hok3 with hok3
        injection hok3 with hok3a hok3b
        subst hok3a
        subst hok3b
        exact ih _ hh
  | case5 b rest hb11 hb65 =>
    intro stack hh
    rw [evalHitsEnd] at hh
    simp [hb11, hb65] at hh

/-- C7: for every expression input that ends before the end marker `0x0B`
is reached (including the empty input), `Eval` returns an end-of-stream
error — `io.ErrUnexpectedEOF` when the opcode read hits the end,
the propagated `io.EOF` when the end falls inside an i32.const varint —
and never the unsupported-opcode error. -/
theorem Eval_truncated_input (l : List Nat) (h : evalHitsEnd l = true) :
    (Eval l = .error .unexpectedEOF ∨ Eval l = .error .eof) ∧
    ∀ b, Eval l ≠ .error (.unknownOpcode b) := by
  have h1 := evalLoop_truncated l [] h
  constructor
  · exact h1
  · intro b hb
    have hb2 : evalLoop l [] = .error (.unknownOpcode b) := hb
    rcases h1 with h2 | h2 <;> rw [h2] at hb2 <;> simp at hb2

/-- Witness instantiation for `Eval_truncated_input`: the input `[0x41]`
ends inside the i32.const immediate. -/
theorem Eval_truncated_input_witness :
    (Eval [65] = .error .unexpectedEOF ∨ Eval [65] = .error .eof) ∧
    ∀ b, Eval [65] ≠ .error (.unknownOpcode b) :=
  Eval_truncated_input [65] (by simp [evalHitsEnd, readVarInt32Aux])

/-- Raw payload of a Custom section (`SectionCustom`); the name string is
kept as its byte sequence. -/
structure SectionCustom where
  name : List Nat
  payload : List Nat
  deriving DecidableEq

/-- One entry of the Type section (`typeEntry`): form tag, parameter value
types and return value types, each read as one raw byte. -/
structure typeEntry where
  form : Nat
  params : List Nat
  returnTypes : List Nat
  deriving DecidableEq

/-- The Type section (`SectionType`). -/
structure SectionType where
  entries : List typeEntry
  deriving DecidableEq

/-- Resizable limits of a table or memory (`resizableLimits`); `maximum`
keeps its Go zero value 0 when the flag byte said it is absent. -/
structure resizableLimits where
  initial : Nat
  maximum : Nat
  deriving DecidableEq

/-- Function import descriptor (`functionType`). -/
structure functionType where
  index : Nat
  deriving DecidableEq

/-- Table import descriptor (`tableType`). -/
structure tableType where
  elemType : Nat
  limits : resizableLimits
  deriving DecidableEq

/-- Memory descriptor (`memoryType`). -/
structure memoryType where
  limits : resizableLimits
  deriving DecidableEq

/-- Global descriptor (`globalType`). -/
structure globalType where
  contentType : Nat
  mutable : Bool
  deriving DecidableEq

/-- One entry of the Import section (`importEntry`): exactly one of the
four descriptors is populated, selected by the kind byte; none is
populated for an out-of-range kind (the Go switch has no default). -/
structure importEntry where
  module : List Nat
  field : List Nat
  kind : Nat
  functionType : Option functionType
  tableType : Option tableType
  memoryType : Option memoryType
  globalType : Option globalType
  deriving DecidableEq

/-- The Import section (`SectionImport`). -/
structure SectionImport where
  entries : List importEntry
  deriving DecidableEq

/-- The Function section (`SectionFunction`): type indices. -/
structure SectionFunction where
  types : List Nat
  deriving DecidableEq

/-- The Table section (`SectionTable`). -/
structure SectionTable where
  entries : List memoryType
  deriving DecidableEq

/-- The Memory section (`SectionMemory`). -/
structure SectionMemory where
  entries : List memoryType
  deriving DecidableEq

/-- One global variable (`globalVariable`): descriptor plus the raw bytes
of its init expression up to and including the end marker. -/
structure globalVariable where
  type : globalType
  init : List Nat
  deriving DecidableEq

/-- The Global section (`SectionGlobal`). -/
structure SectionGlobal where
  globals : List globalVariable
  deriving DecidableEq

/-- One entry of the Export section (`exportEntry`). -/
structure exportEntry where
  field : List Nat
  kind : Nat
  index : Nat
  deriving DecidableEq

/-- The Export section (`SectionExport`). -/
structure SectionExport where
  entries : List exportEntry
  deriving DecidableEq

/-- The Start section (`SectionStart`). -/
structure SectionStart where
  index : Nat
  deriving DecidableEq

/-- One element segment (`elemSegment`). -/
structure elemSegment where
  index : Nat
  offset : List Nat
  elems : List Nat
  deriving DecidableEq

/-- The Element section (`SectionElement`). -/
structure SectionElement where
  entries : List elemSegment
  deriving DecidableEq

/-- One (repeat count, value type) local declaration (`localEntry`). -/
structure localEntry where
  count : Nat
  type : Nat
  deriving DecidableEq

/-- One function body (`functionBody`): locals list plus the opaque
bytecode blob. -/
structure functionBody where
  locals : List localEntry
  code : List Nat
  deriving DecidableEq

/-- The Code section (`SectionCode`). -/
structure SectionCode where
  bodies : List functionBody
  deriving DecidableEq

/-- One data segment (`dataSegment`). -/
structure dataSegment where
  index : Nat
  offset : List Nat
  data : List Nat
  deriving DecidableEq

/-- The Data section (`SectionData`). -/
structure SectionData where
  entries : List dataSegment
  deriving DecidableEq

/-- One index-to-name mapping (`naming`). -/
structure naming where
  index : Nat
  name : List Nat
  deriving DecidableEq

/-- A name map (`nameMap`). -/
structure nameMap where
  names : List naming
  deriving DecidableEq

/-- A per-function local name map (`localName`). -/
structure localName where
  index : Nat
  localMap : nameMap
  deriving DecidableEq

/-- The local-names payload (`locals`). -/
structure localsMap where
  funcs : List localName
  deriving DecidableEq

/-- A decoded Name section (`SectionName`): exactly one of the module
name, function name map or local name maps is populated, chosen by the
discriminant byte. -/
structure SectionName where
  name : List Nat
  module : List Nat
  functions : Option nameMap
  locals : Option localsMap
  deriving DecidableEq

/-- Tagged union over the decoded section variants; the items of
`Module.Sections` are a mix of the `SectionXXX` types. -/
inductive Section where
  | custom : SectionCustom → Section
  | types : SectionType → Section
  | imports : SectionImport → Section
  | functions : SectionFunction → Section
  | tables : SectionTable → Section
  | memories : SectionMemory → Section
  | globals : SectionGlobal → Section
  | exports : SectionExport → Section
  | starts : SectionStart → Section
  | elements : SectionElement → Section
  | codes : SectionCode → Section
  | datas : SectionData → Section
  | names : SectionName → Section
  deriving DecidableEq

/-- A parsed module (`Module`): the decoded sections in file order. -/
structure Module where
  sections : List Section
  deriving DecidableEq

/-- Wraps an error with its `fmt.Errorf("<s>: %v", err)` context. -/
def withCtx (s : String) : Except PErr α → Except PErr α
  | .error e => .error (.ctx s e)
  | .ok x => .ok x

/-- Runs a fixed-count decoding loop (the `make` + `for range` pattern of
the section decoders), collecting the decoded entries in read order. -/
def readN (dec : Reader → Except PErr (α × Reader)) : Nat → Reader → Except PErr (List α × Reader)
  | 0, r => .ok ([], r)
  | n + 1, r =>
    match dec r with
    | .error e => .error e
    | .ok (a, r2) =>
      match readN dec n r2 with
      | .error e => .error e
      | .ok (as, r3) => .ok (a :: as, r3)

/-- Entry loop of `parseMultiSection` (parser.go): calls the per-entry
decoder `n` times, wrapping a failure of entry `i` as
`fmt.Errorf("entry %d: %v", i, err)`; the declared payload length is
passed through to the callback. -/
def runEntries (f : Nat → Reader → Except PErr (α × Reader)) (pl : Nat) :
    Nat → Nat → Reader → Except PErr (List α × Reader)
  | 0, _, r => .ok ([], r)
  | k + 1, i, r =>
    match f pl r with
    | .error e => .error (.entry i e)
    | .ok (a, r2) =>
      match runEntries f pl k (i + 1) r2 with
      | .error e => .error e
      | .ok (as, r3) => .ok (a :: as, r3)

/-- Section-framing helper `parseMultiSection` (parser.go, lines 624-641):
reads the declared payload length and the entry count, then runs the
per-entry callback count-many times. This variant performs no
position check after the entries. -/
def parseMultiSection (f : Nat → Reader → Except PErr (α × Reader)) (r : Reader) :
    Except PErr (List α × Reader) :=
  match readVarUint32 r with
  | .error e => .error (.ctx "read type section payload length" e)
  | .ok (pl, r) =>
  match readVarUint32 r with
  | .error e => .error (.ctx "read section count" e)
  | .ok (n, r) => runEntries f pl n 0 r

/-- The byte sequence of the reserved custom-section name "name". -/
def nameBytes : List Nat := [110, 97, 109, 101]

/-- One naming of `parseNameMap`. -/
def namingDec (r : Reader) : Except PErr (naming × Reader) :=
  match readVarUint32 r with
  | .error e => .error (.ctx "read naming index" e)
  | .ok (ix, r) =>
  match readVarUint32 r with
  | .error e => .error (.ctx "read naming length" e)
  | .ok (l, r) =>
  match readBytes l r with
  | .error e => .error (.ctx "read name" e)
  | .ok (nm, r) => .ok (⟨ix, nm⟩, r)

/-- Name-map decoder `parseNameMap` (parser.go). -/
def parseNameMap (r : Reader) : Except PErr (nameMap × Reader) :=
  match readVarUint32 r with
  | .error e => .error (.ctx "read name map count" e)
  | .ok (count, r) =>
  match readN namingDec count r with
  | .error e => .error e
  | .ok (ns, r) => .ok (⟨ns⟩, r)

/-- One per-function local name entry of the Name section's local-names
branch. -/
def localNameDec (r : Reader) : Except PErr (localName × Reader) :=
  match readVarUint32 r with
  | .error e => .error (.ctx "read local func index" e)
  | .ok (ix, r) =>
  match parseNameMap r with
  | .error e => .error (.ctx "read local name map" e)
  | .ok (m, r) => .ok (⟨ix, m⟩, r)

/-- Name-section decoder `parseNameSection` (parser.go): discriminant
byte, informational payload length, then one of the three shapes;
an unknown discriminant is the "unknown name section 0x%02x" error. -/
def parseNameSection (name : List Nat) (_n : Nat) (r : Reader) :
    Except PErr (Option Section × Reader) :=
  match readByte r with
  | .error e => .error (.ctx "read name type" e)
  | .ok (t, r) =>
  match readVarUint32 r with
  | .error e => .error (.ctx "read payload length" e)
  | .ok (_pl, r) =>
  if t = 0 then
    match readVarUint32 r with
    | .error e => .error (.ctx "read module name length" e)
    | .ok (l, r) =>
    match readBytes l r with
    | .error e => .error (.ctx "read module name" e)
    | .ok (mname, r) => .ok (some (.names ⟨name, mname, none, none⟩), r)
  else if t = 1 then
    match parseNameMap r with
    | .error e => .error (.ctx "read function name map" e)
    | .ok (m, r) => .ok (some (.names ⟨name, [], some m, none⟩), r)
  else if t = 2 then
    match readVarUint32 r with
    | .error e => .error (.ctx "read local func name count" e)
    | .ok (count, r) =>
    match readN localNameDec count r with
    | .error e => .error e
    | .ok (fs, r) => .ok (some (.names ⟨name, [], none, some ⟨fs⟩⟩), r)
  else .error (.unknownNameSection t)

/-- Custom-section decoder `parseCustomSection` (parser.go): payload
length, name length, name bytes, then the payload length is decremented
by the name length and by `varUint32Size(name length)` (both `uint32`
subtractions, wrapping modulo `2^32`); the remainder is either handed to
the Name sub-decoder or read as the raw payload. -/
def parseCustomSection (r : Reader) : Except PErr (Option Section × Reader) :=
  match readVarUint32 r with
  | .error e => .error (.ctx "read section payload length" e)
  | .ok (pl, r) =>
  match readVarUint32 r with
  | .error e => .error (.ctx "read section name length" e)
  | .ok (nl, r) =>
  match readBytes nl r with
  | .error e => .error (.ctx "read section name" e)
  | .ok (name, r) =>
  let pl2 := (pl + 4294967296 - nl) % 4294967296
  let pl3 := (pl2 + 4294967296 - varUint32Size nl) % 4294967296
  if name = nameBytes then parseNameSection name pl3 r
  else
    match readBytes pl3 r with
    | .error e => .error (.ctx "read custom section payload" e)
    | .ok (payload, r) => .ok (some (.custom ⟨name, payload⟩), r)

/-- One Type-section entry (closure inside `parseTypeSection`). -/
def typeEntryDec (_pl : Nat) (r : Reader) : Except PErr (typeEntry × Reader) :=
  match readByte r with
  | .error e => .error (.ctx "read form" e)
  | .ok (form, r) =>
  match readVarUint32 r with
  | .error e => .error (.ctx "read func param count" e)
  | .ok (pc, r) =>
  match readN (fun r => withCtx "read function param type" (readByte r)) pc r with
  | .error e => .error e
  | .ok (params, r) =>
  match readByte r with
  | .error e => .error (.ctx "read number of returns from function" e)
  | .ok (rc, r) =>
  match readN (fun r => withCtx "read function return type" (readByte r)) rc r with
  | .error e => .error e
  | .ok (rets, r) => .ok (⟨form, params, rets⟩, r)

/-- Type-section decoder `parseTypeSection` (parser.go). -/
def parseTypeSection (r : Reader) : Except PErr (Option Section × Reader) :=
  match parseMultiSection typeEntryDec r with
  | .error e => .error e
  | .ok (es, r) => .ok (some (.types ⟨es⟩), r)

/-- Resizable-limits decoder `parseResizableLimits` (parser.go): flag
byte, initial, then the maximum only when the flag was nonzero. -/
def parseResizableLimits (r : Reader) : Except PErr (resizableLimits × Reader) :=
  match readBool r with
  | .error e => .error (.ctx "flags" e)
  | .ok (hasMax, r) =>
  match readVarUint32 r with
  | .error e => .error (.ctx "initial" e)
  | .ok (ini, r) =>
  if hasMax then
    match readVarUint32 r with
    | .error e => .error (.ctx "maximum" e)
    | .ok (mx, r) => .ok (⟨ini, mx⟩, r)
  else .ok (⟨ini, 0⟩, r)

/-- One Import-section entry (closure inside `parseImportSection`): names,
kind byte, then the kind-selected descriptor; kinds above 3 fall through
the Go switch and leave every descriptor nil. -/
def importEntryDec (_pl : Nat) (r : Reader) : Except PErr (importEntry × Reader) :=
  match readVarUint32 r with
  | .error e => .error (.ctx "read module length" e)
  | .ok (ml, r) =>
  match readBytes ml r with
  | .error e => .error (.ctx "read module name" e)
  | .ok (modName, r) =>
  match readVarUint32 r with
  | .error e => .error (.ctx "read field length" e)
  | .ok (fl, r) =>
  match readBytes fl r with
  | .error e => .error (.ctx "read field name" e)
  | .ok (fieldName, r) =>
  match readByte r with
  | .error e => .error (.ctx "read kind" e)
  | .ok (kind, r) =>
  if kind = 0 then
    match readVarUint32 r with
    | .error e => .error (.ctx "read function type index" e)
    | .ok (ix, r) => .ok (⟨modName, fieldName, kind, some ⟨ix⟩, none, none, none⟩, r)
  else if kind = 1 then
    match readByte r with
    | .error e => .error (.ctx "read table element type" e)
    | .ok (et, r) =>
    match parseResizableLimits r with
    | .error e => .error (.ctx "read table resizable limits" e)
    | .ok (lim, r) => .ok (⟨modName, fieldName, kind, none, some ⟨et, lim⟩, none, none⟩, r)
  else if kind = 2 then
    match parseResizableLimits r with
    | .error e => .error (.ctx "read memory resizable limits" e)
    | .ok (lim, r) => .ok (⟨modName, fieldName, kind, none, none, some ⟨lim⟩, none⟩, r)
  else if kind = 3 then
    match readByte r with
    | .error e => .error (.ctx "read global content type" e)
    | .ok (ct, r) =>
    match readBool r with
    | .error e => .error (.ctx "read global mutability" e)
    | .ok (mu, r) => .ok (⟨modName, fieldName, kind, none, none, none, some ⟨ct, mu⟩⟩, r)
  else .ok (⟨modName, fieldName, kind, none, none, none, none⟩, r)

/-- Import-section decoder `parseImportSection` (parser.go). -/
def parseImportSection (r : Reader) : Except PErr (Option Section × Reader) :=
  match parseMultiSection importEntryDec r with
  | .error e => .error e
  | .ok (es, r) => .ok (some (.imports ⟨es⟩), r)

/-- One Function-section entry (closure inside `parseFunctionSection`). -/
def functionEntryDec (_pl : Nat) (r : Reader) : Except PErr (Nat × Reader) :=
  match readVarUint32 r with
  | .error e => .error (.ctx "read function type" e)
  | .ok (t, r) => .ok (t, r)

/-- Function-section decoder `parseFunctionSection` (parser.go). -/
def parseFunctionSection (r : Reader) : Except PErr (Option Section × Reader) :=
  match parseMultiSection functionEntryDec r with
  | .error e => .error e
  | .ok (ts, r) => .ok (some (.functions ⟨ts⟩), r)

/-- One Table/Memory-section entry (closures inside `parseTableSection`
and `parseMemorySection`, both reading one `memoryType`). -/
def memoryEntryDec (_pl : Nat) (r : Reader) : Except PErr (memoryType × Reader) :=
  match parseResizableLimits r with
  | .error e => .error (.ctx "read memory resizable limits" e)
  | .ok (lim, r) => .ok (⟨lim⟩, r)

/-- Table-section decoder `parseTableSection` (parser.go). -/
def parseTableSection (r : Reader) : Except PErr (Option Section × Reader) :=
  match parseMultiSection memoryEntryDec r with
  | .error e => .error e
  | .ok (es, r) => .ok (some (.tables ⟨es⟩), r)

/-- Memory-section decoder `parseMemorySection` (parser.go). -/
def parseMemorySection (r : Reader) : Except PErr (Option Section × Reader) :=
  match parseMultiSection memoryEntryDec r with
  | .error e => .error e
  | .ok (es, r) => .ok (some (.memories ⟨es⟩), r)

/-- One Global-section entry (closure inside `parseGlobalSection`). -/
def globalEntryDec (_pl : Nat) (r : Reader) : Except PErr (globalVariable × Reader) :=
  match readByte r with
  | .error e => .error (.ctx "read global content type" e)
  | .ok (ct, r) =>
  match readBool r with
  | .error e => .error (.ctx "read global mutability" e)
  | .ok (mu, r) =>
  match readUntil 11 r with
  | .error e => .error (.ctx "read global init expression" e)
  | .ok (init, r) => .ok (⟨⟨ct, mu⟩, init⟩, r)

/-- Global-section decoder `parseGlobalSection` (parser.go). -/
def parseGlobalSection (r : Reader) : Except PErr (Option Section × Reader) :=
  match parseMultiSection globalEntryDec r with
  | .error e => .error e
  | .ok (gs, r) => .ok (some (.globals ⟨gs⟩), r)

/-- One Export-section entry (closure inside `parseExportSection`). -/
def exportEntryDec (_pl : Nat) (r : Reader) : Except PErr (exportEntry × Reader) :=
  match readVarUint32 r with
  | .error e => .error (.ctx "read field length" e)
  | .ok (fl, r) =>
  match readBytes fl r with
  | .error e => .error (.ctx "read field" e)
  | .ok (f, r) =>
  match readByte r with
  | .error e => .error (.ctx "read kind" e)
  | .ok (kind, r) =>
  match readVarUint32 r with
  | .error e => .error (.ctx "read index" e)
  | .ok (ix, r) => .ok (⟨f, kind, ix⟩, r)

/-- Export-section decoder `parseExportSection` (parser.go). -/
def parseExportSection (r : Reader) : Except PErr (Option Section × Reader) :=
  match parseMultiSection exportEntryDec r with
  | .error e => .error e
  | .ok (es, r) => .ok (some (.exports ⟨es⟩), r)

/-- Start-section decoder `parseStartSection` (parser.go): a single
vary-length index, with no count framing. -/
def parseStartSection (r : Reader) : Except PErr (Option Section × Reader) :=
  match readVarUint32 r with
  | .error e => .error (.ctx "read start index" e)
  | .ok (ix, r) => .ok (some (.starts ⟨ix⟩), r)

/-- One Element-section entry (closure inside `parseElementSection`). -/
def elemEntryDec (_pl : Nat) (r : Reader) : Except PErr (elemSegment × Reader) :=
  match readVarUint32 r with
  | .error e => .error (.ctx "read element index" e)
  | .ok (ix, r) =>
  match readUntil 11 r with
  | .error e => .error (.ctx "read offset expression" e)
  | .ok (off, r) =>
  match readVarUint32 r with
  | .error e => .error (.ctx "read number of elements" e)
  | .ok (numElem, r) =>
  match readN (fun r => withCtx "read element function index" (readVarUint32 r)) numElem r with
  | .error e => .error e
  | .ok (es, r) => .ok (⟨ix, off, es⟩, r)

/-- Element-section decoder `parseElementSection` (parser.go). -/
def parseElementSection (r : Reader) : Except PErr (Option Section × Reader) :=
  match parseMultiSection elemEntryDec r with
  | .error e => .error e
  | .ok (es, r) => .ok (some (.elements ⟨es⟩), r)

/-- One local declaration of a Code-section entry. -/
def localEntryDec (r : Reader) : Except PErr (localEntry × Reader) :=
  match readVarUint32 r with
  | .error e => .error (.ctx "read local entry count" e)
  | .ok (c, r) =>
  match readByte r with
  | .error e => .error (.ctx "read local entry value type" e)
  | .ok (t, r) => .ok (⟨c, t⟩, r)

/-- One Code-section entry (closure inside `parseCodeSection`): reads the
declared body size, records `end := p.r.Index() + int(bs)`, decodes the
locals list, then computes `numBytes := end - p.r.Index()` as a Go `int`.
When the locals list consumed more bytes than the declared body size,
`numBytes` is negative and `make([]byte, numBytes)` panics at run time
(`makesliceLenOutOfRange`); no decode error is returned for this case. -/
def codeEntryDec (_pl : Nat) (r : Reader) : Except PErr (functionBody × Reader) :=
  match readVarUint32 r with
  | .error e => .error (.ctx "read body size" e)
  | .ok (bs, r) =>
  let endIdx : Int := (r.idx : Int) + (bs : Int)
  match readVarUint32 r with
  | .error e => .error (.ctx "read local count" e)
  | .ok (localCount, r) =>
  match readN localEntryDec localCount r with
  | .error e => .error e
  | .ok (locals, r) =>
  let numBytes : Int := endIdx - (r.idx : Int)
  if numBytes < 0 then .error .makesliceLenOutOfRange
  else
    match readBytes numBytes.toNat r with
    | .error e => .error (.ctx "read function bytecode" e)
    | .ok (code, r) => .ok (⟨locals, code⟩, r)

/-- Code-section decoder `parseCodeSection` (parser.go). -/
def parseCodeSection (r : Reader) : Except PErr (Option Section × Reader) :=
  match parseMultiSection codeEntryDec r with
  | .error e => .error e
  | .ok (bs, r) => .ok (some (.codes ⟨bs⟩), r)

/-- One Data-section entry (closure inside `parseDataSection`). -/
def dataEntryDec (_pl : Nat) (r : Reader) : Except PErr (dataSegment × Reader) :=
  match readVarUint32 r with
  | .error e => .error (.ctx "read data segment index" e)
  | .ok (ix, r) =>
  match readUntil 11 r with
  | .error e => .error (.ctx "read data section offset initializer" e)
  | .ok (off, r) =>
  match readVarUint32 r with
  | .error e => .error (.ctx "read data section size" e)
  | .ok (size, r) =>
  match readBytes size r with
  | .error e => .error (.ctx "read data section data" e)
  | .ok (d, r) => .ok (⟨ix, off, d⟩, r)

/-- Data-section decoder `parseDataSection` (parser.go). -/
def parseDataSection (r : Reader) : Except PErr (Option Section × Reader) :=
  match parseMultiSection dataEntryDec r with
  | .error e => .error e
  | .ok (es, r) => .ok (some (.datas ⟨es⟩), r)

/-- Section dispatcher `parseSection` (parser.go, lines 82-129): one
section-id byte, then either the matching payload decoder or, for an
unrecognized id, the payload length is read and discarded and the
dispatcher fails with the "data corrupted; section id 0x%02x not valid"
error whenever the id exceeds `secData` (0x0B). The twelve known ids are
exactly 0x00-0x0B, so the skip-and-continue return of `(nil, nil)` below
the corruption check is unreachable. -/
def parseSection (r : Reader) : Except PErr (Option Section × Reader) :=
  match readByte r with
  | .error e => .error (.ctx "read section id" e)
  | .ok (sID, r) =>
  if sID = 0 then parseCustomSection r
  else if sID = 1 then parseTypeSection r
  else if sID = 2 then parseImportSection r
  else if sID = 3 then parseFunctionSection r
  else if sID = 4 then parseTableSection r
  else if sID = 5 then parseMemorySection r
  else if sID = 6 then parseGlobalSection r
  else if sID = 7 then parseExportSection r
  else if sID = 8 then parseStartSection r
  else if sID = 9 then parseElementSection r
  else if sID = 10 then parseCodeSection r
  else if sID = 11 then parseDataSection r
  else
    match readVarUint32 r with
    | .error e => .error (.ctx "read type section payload length" e)
    | .ok (offset, r) =>
    match discardN offset r with
    | .error e => .error (.ctx "discard section payload" e)
    | .ok r =>
    if 11 < sID then .error (.dataCorrupted sID)
    else .ok (none, r)

/-- Preamble validator `parsePreamble` (parser.go, lines 65-80): 4-byte
little-endian magic (must be 0x6d736100, "\0asm") then 4-byte
little-endian version (must be 1). -/
def parsePreamble (r : Reader) : Except PErr Reader :=
  match readUint32LE r with
  | .error _ => .error .couldNotReadHeader
  | .ok (h, r) =>
  if h ≠ 1836278016 then .error .notWasmFile
  else
    match readUint32LE r with
    | .error _ => .error .couldNotReadVersion
    | .ok (v, r) =>
    if v ≠ 1 then .error (.unsupportedVersion v) else .ok r

/-- Section loop of `Parse` (parser.go): keeps calling `parseSection`,
appending decoded sections; an error whose message ends in "EOF" is the
normal termination; other errors abort wrapped in the
"[0x%06x] parse section: %v" context (the offset is diagnostic only and
elided here). The Go loop is unbounded; it is driven here by a fuel
argument, with `Parse` supplying `input.length + 1`, which cannot run out
because every successful `parseSection` consumes at least one byte. -/
def parseLoop : Nat → Reader → List Section → Except PErr Module
  | 0, _, _ => .error .outOfFuel
  | fuel + 1, r, acc =>
    match parseSection r with
    | .error e => if e.endsWithEOF then .ok ⟨acc⟩ else .error (.ctx "parse section" e)
    | .ok (none, r2) => parseLoop fuel r2 acc
    | .ok (some s, r2) => parseLoop fuel r2 (acc ++ [s])

/-- Top-level entry point `Parse` (parser.go, lines 37-63): preamble, then
the section loop starting from the empty module. -/
def Parse (input : List Nat) : Except PErr Module :=
  match parsePreamble ⟨input, 0⟩ with
  | .error e => .error e
  | .ok r => parseLoop (input.length + 1) r []

namespace Checked

/-- Entry loop of the position-checked `parseMultiSection` variant
(sections.go, second parser generation): the per-entry callback takes no
arguments and mutates the shared reader; a failure of entry `i` is
wrapped as `fmt.Errorf("entry %d: %v", i, err)`. -/
def runEntries (f : Reader → Except PErr Reader) : Nat → Nat → Reader → Except PErr Reader
  | 0, _, r => .ok r
  | k + 1, i, r =>
    match f r with
    | .error e => .error (.entry i e)
    | .ok r2 => Checked.runEntries f k (i + 1) r2

/-- Position-checked section-framing helper `parseMultiSection`
(sections.go, lines 882-907): reads the declared payload length, records
`s := p.r.Index()`, reads the entry count, runs the entries, then
computes `d := p.r.Index() - s` and fails with "section was not fully
read, expected %d to be read but %d were read" when `d` differs from the
declared length. -/
def parseMultiSection (f : Reader → Except PErr Reader) (r : Reader) :
    Except PErr Reader :=
  match readVarUint32 r with
  | .error e => .error (.ctx "read type section payload length" e)
  | .ok (pl, r1) =>
  let s := r1.idx
  match readVarUint32 r1 with
  | .error e => .error (.ctx "read section count" e)
  | .ok (n, r2) =>
  match Checked.runEntries f n 0 r2 with
  | .error e => .error e
  | .ok r3 =>
  let d := r3.idx - s
  if d ≠ pl then .error (.sectionNotFullyRead pl d) else .ok r3

end Checked

/-- C3: for the position-checked `parseMultiSection` (used by every
counted-list section), a successful parse implies the bytes consumed
after the payload-length field — the count field plus all entries —
equal the declared payload length, and any disagreement fails with the
"section was not fully read" error naming both the expected and the
actual count. -/
theorem parseMultiSection_exact_consumption
    (f : Reader → Except PErr Reader) (r r1 : Reader) (pl : Nat)
    (h1 : readVarUint32 r = .ok (pl, r1)) :
    (∀ r3, Checked.parseMultiSection f r = .ok r3 → r3.idx - r1.idx = pl) ∧
    (∀ n r2 r3, readVarUint32 r1 = .ok (n, r2) →
      Checked.runEntries f n 0 r2 = .ok r3 → r3.idx - r1.idx ≠ pl →
      Checked.parseMultiSection f r = .error (.sectionNotFullyRead pl (r3.idx - r1.idx))) := by
  constructor
  · intro r3 h
    simp only [Checked.parseMultiSection, h1] at h
    split at h
    · simp at h
    · rename_i n2 r2' hn
      split at h
      · simp at h
      · rename_i r3' hrun
        split at h
        · simp at h
        · rename_i hd
          simp only [Except.ok.injEq] at h
          subst h
          omega
  · intro n r2 r3 h2 hrun hd
    simp only [Checked.parseMultiSection, h1, h2, hrun]
    rw [if_pos hd]

/-- Witness instantiation for `parseMultiSection_exact_consumption`: the
entry decoder reads one varint; the section bytes `[0x02, 0x01, 0x05]`
declare 2 payload bytes and consume exactly 2, while `[0x03, 0x01, 0x05]`
declare 3 but consume 2, which fails naming both counts. -/
theorem parseMultiSection_exact_consumption_witness :
    ((⟨[], 3⟩ : Reader).idx - (⟨[1, 5], 1⟩ : Reader).idx = 2) ∧
    Checked.parseMultiSection
      (fun r => match readVarUint32 r with
        | .error e => .error e
        | .ok (_, r2) => .ok r2) ⟨[3, 1, 5], 0⟩ =
      .error (.sectionNotFullyRead 3 2) :=
  ⟨(parseMultiSection_exact_consumption
      (fun r => match readVarUint32 r with
        | .error e => .error e
        | .ok (_, r2) => .ok r2) ⟨[2, 1, 5], 0⟩ ⟨[1, 5], 1⟩ 2 (by decide)).1
      ⟨[], 3⟩ (by decide),
   (parseMultiSection_exact_consumption
      (fun r => match readVarUint32 r with
        | .error e => .error e
        | .ok (_, r2) => .ok r2) ⟨[3, 1, 5], 0⟩ ⟨[1, 5], 1⟩ 3 (by decide)).2
      1 ⟨[5], 2⟩ ⟨[], 3⟩ (by decide) (by decide) (by decide)⟩

/-- C1 counterexample: for the unknown section-kind tag 0x0C with declared
payload length 0, the dispatcher does not skip-and-continue; it aborts
with the "data corrupted" error, refuting "parsing continues to the next
section unaffected" for unrecognized tags. -/
theorem parseSection_unknown_tag_counterexample :
    parseSection ⟨[12, 0], 0⟩ = .error (.dataCorrupted 12) := by
  decide

/-- C1 as amended: every section-kind tag outside the twelve known values
is numerically greater than 0x0B, so the dispatcher reads the declared
payload length, discards exactly that many bytes, and then always aborts
the parse with the "data corrupted; section id 0x%02x not valid" error;
the skip-and-continue path of the dispatcher is unreachable. -/
theorem parseSection_unknown_tag_aborts (sID i pl : Nat) (rest : List Nat) (r2 : Reader)
    (hlo : 12 ≤ sID) (hhi : sID ≤ 255)
    (hpl : readVarUint32 ⟨rest, i + 1⟩ = .ok (pl, r2))
    (hlen : pl ≤ r2.data.length) :
    parseSection ⟨sID :: rest, i⟩ = .error (.dataCorrupted sID) := by
  have h0 : readByte ⟨sID :: rest, i⟩ = .ok (sID, ⟨rest, i + 1⟩) := rfl
  simp only [parseSection, h0]
  iterate 12 rw [if_neg (show ¬_ from by omega)]
  simp only [hpl, discardN, if_pos hlen]
  rw [if_pos (by omega)]

/-- Witness instantiation for `parseSection_unknown_tag_aborts` at tag
0x0D with payload length 1. -/
theorem parseSection_unknown_tag_aborts_witness :
    parseSection ⟨[13, 1, 170], 0⟩ = .error (.dataCorrupted 13) :=
  parseSection_unknown_tag_aborts 13 0 1 [1, 170] ⟨[170], 2⟩ (by decide) (by decide)
    (by decide) (by decide)

/-- C4: evaluation of the Custom-section decoder at the failing input.
With payload length 1 and name length 0, the decoder consumes two bytes
after the payload-length field (the name-length byte plus one payload
byte, because `varUint32Size 0 = 0` fails to account for the name-length
prefix) instead of the declared one byte: the final reader index is 3
although the payload-length field ended at index 1 and declared 1 byte.
For a name length in 1..127 (second conjunct, name length 1) the
accounting is exact: 2 declared, 2 consumed. -/
theorem parseCustomSection_overconsumes :
    parseCustomSection ⟨[1, 0, 170], 0⟩ = .ok (some (.custom ⟨[], [170]⟩), ⟨[], 3⟩) ∧
    parseCustomSection ⟨[2, 1, 97, 170], 0⟩ = .ok (some (.custom ⟨[97], []⟩), ⟨[170], 3⟩) := by
  have hv0 : varUint32Size 0 = 0 := by
    rw [varUint32Size]
    norm_num
  have hv1 : varUint32Size 1 = 1 := by
    rw [varUint32Size]
    norm_num
    rw [show (1 : Nat) >>> 8 = 0 from rfl, hv0]
  constructor
  · have h1 : readVarUint32 ⟨[1, 0, 170], 0⟩ = .ok (1, ⟨[0, 170], 1⟩) := by decide
    have h2 : readVarUint32 ⟨[0, 170], 1⟩ = .ok (0, ⟨[170], 2⟩) := by decide
    have h3 : readBytes 0 ⟨[170], 2⟩ = .ok ([], ⟨[170], 2⟩) := by decide
    simp only [parseCustomSection, h1, h2, h3, hv0, nameBytes]
    decide
  · have h1 : readVarUint32 ⟨[2, 1, 97, 170], 0⟩ = .ok (2, ⟨[1, 97, 170], 1⟩) := by decide
    have h2 : readVarUint32 ⟨[1, 97, 170], 1⟩ = .ok (1, ⟨[97, 170], 2⟩) := by decide
    have h3 : readBytes 1 ⟨[97, 170], 2⟩ = .ok ([97], ⟨[170], 3⟩) := by decide
    simp only [parseCustomSection, h1, h2, h3, hv1, nameBytes]
    decide

/-- C5: a first word that is not the magic constant fails with the
"not a wasm file" error, and a correct magic followed by a version other
than 1 fails with the "unsupported version %d" error; in both cases the
result is the bare error, with no partial module. -/
theorem Parse_rejects_bad_preamble (b0 b1 b2 b3 v0 v1 v2 v3 : Nat)
    (rest rest2 : List Nat)
    (hm : b0 + 256 * b1 + 65536 * b2 + 16777216 * b3 ≠ 1836278016)
    (hv : v0 + 256 * v1 + 65536 * v2 + 16777216 * v3 ≠ 1) :
    Parse (b0 :: b1 :: b2 :: b3 :: rest) = .error .notWasmFile ∧
    Parse (0 :: 97 :: 115 :: 109 :: v0 :: v1 :: v2 :: v3 :: rest2) =
      .error (.unsupportedVersion (v0 + 256 * v1 + 65536 * v2 + 16777216 * v3)) := by
  constructor
  · simp only [Parse, parsePreamble, readUint32LE]
    rw [if_pos hm]
  · simp only [Parse, parsePreamble, readUint32LE]
    rw [if_neg (by norm_num)]
    rw [if_pos hv]

/-- Witness instantiation for `Parse_rejects_bad_preamble`: first word 1,
then version 2. -/
theorem Parse_rejects_bad_preamble_witness :
    Parse [1, 0, 0, 0] = .error .notWasmFile ∧
    Parse [0, 97, 115, 109, 2, 0, 0, 0] = .error (.unsupportedVersion 2) :=
  Parse_rejects_bad_preamble 1 0 0 0 2 0 0 0 [] [] (by decide) (by decide)

/-- C8: the input consisting of exactly the valid 8-byte preamble decodes
to a module with the empty section list, and, in general, end-of-stream
where a section-kind byte is expected ends the section loop normally with
the sections accumulated so far. -/
theorem Parse_empty_module :
    Parse [0, 97, 115, 109, 1, 0, 0, 0] = .ok ⟨[]⟩ ∧
    (∀ fuel r acc, r.data = [] → 0 < fuel → parseLoop fuel r acc = .ok ⟨acc⟩) := by
  constructor
  · decide
  · intro fuel r acc hdata hfuel
    match fuel, hfuel with
    | fuel + 1, _ =>
      obtain ⟨data, idx⟩ := r
      dsimp only at hdata
      subst hdata
      simp [parseLoop, parseSection, readByte, PErr.endsWithEOF]

/-- Witness instantiation for `Parse_empty_module` at the state just after
the preamble of the empty module. -/
theorem Parse_empty_module_witness :
    parseLoop 1 ⟨[], 8⟩ [] = .ok ⟨[]⟩ :=
  Parse_empty_module.2 1 ⟨[], 8⟩ [] rfl (by decide)

/-- C9: decoding is deterministic — `Parse` is a pure function of the
input bytes, so two successful runs on the same bytes yield structurally
equal modules. -/
theorem Parse_deterministic (bs : List Nat) (m1 m2 : Module)
    (h1 : Parse bs = .ok m1) (h2 : Parse bs = .ok m2) : m1 = m2 := by
  rw [h1] at h2
  exact Except.ok.inj h2

/-- Witness instantiation for `Parse_deterministic` on the empty module. -/
theorem Parse_deterministic_witness : (⟨[]⟩ : Module) = ⟨[]⟩ :=
  Parse_deterministic [0, 97, 115, 109, 1, 0, 0, 0] ⟨[]⟩ ⟨[]⟩ (by decide) (by decide)

/-- C10: evaluation of the Code-section entry decoder at a failing input.
The bytes `[0x01, 0x01, 0x00, 0x00]` declare a body size of 1, but the
locals list (count field plus one (count, type) declaration) consumes 3
bytes, so `numBytes = end - Index()` is the negative value -2 and the
decoder hits the `make([]byte, numBytes)` runtime panic — modelled by the
distinguished `makesliceLenOutOfRange` marker, which no decoder returns
as a decode error. -/
theorem parseCodeSection_locals_overrun :
    codeEntryDec 0 ⟨[1, 1, 0, 0], 0⟩ = .error .makesliceLenOutOfRange := by
  decide
